import Mathlib

/-!
Verification of the markdown2typst rendering and metadata-resolution engine.

This file gives a shallow embedding, in Lean, of the modular pipeline of the
markdown2typst library (the TypeScript sources `utils.ts` / `block-renderer` /
`inline-renderer` / `collectors` / `frontmatter` / `output-builder` /
`markdown2typst.ts`), and proves properties of that embedding.

Modelling conventions:
* Values that are `string | null | undefined` in the source become
  `Option String`.
* The optional `onError` callback becomes a boolean flag `hasOnError` in the
  render context, and every call site `if (context.onError) context.onError(e)`
  becomes an emission of `e` into a write-only error list, gated on that flag.
  The callback in the source is invoked for its side effect only, so a
  write-only list is an exact model of the sequence of callback invocations.
* The external LaTeX-to-Typst converter `tex2typst` (a fallible black box per
  the project structure) is a parameter of type `String → Except String String`;
  `Except.error` models a thrown exception whose message is the payload.
  Likewise the external language/region lookup tables and the external YAML
  decoder are parameters.
* The recursive renderers take a fuel parameter and recurse on it; the source
  recursion is bounded by the JavaScript call stack, and every theorem below
  either holds for all fuel values or instantiates fuel with a value that is
  ample for the concrete input at hand.
* The mutable `context.warnings.externalImages` flag is written during
  rendering and only read afterwards by the output assembler, so it is modelled
  as a write-only boolean combined with `||` (the source only ever sets it to
  `true`).
* Tables are outside the modelled fragment of the node language (no claim
  depends on them).
-/

set_option maxRecDepth 100000

namespace M2T

/-- The backtick character (code point 96). -/
def backtickChar : Char := Char.ofNat 96

/-- A run of `n` equals signs (the comment rulers of the output builder). -/
def eqRuler (n : Nat) : String := String.mk (List.replicate n '=')

/-- A run of `n` dashes. -/
def dashRuler (n : Nat) : String := String.mk (List.replicate n '-')

/-- `String.prototype.trim`: drop whitespace from both ends.  (Implemented
over the character list so that it reduces inside the kernel; the JS
whitespace set restricted to the characters that occur in this model.) -/
def jsTrim (s : String) : String :=
  String.mk
    (((s.data.dropWhile Char.isWhitespace).reverse.dropWhile
      Char.isWhitespace).reverse)

/-- `String.prototype.toLowerCase`, character-wise. -/
def jsToLower (s : String) : String :=
  String.mk (s.data.map Char.toLower)

/-- Split a character list at every occurrence of a separator character
(the behaviour of `String.prototype.split` with a one-character
separator). -/
def splitOnChar (sep : Char) : List Char → List (List Char)
  | [] => [[]]
  | c :: rest =>
    let r := splitOnChar sep rest
    if c = sep then [] :: r
    else
      match r with
      | h :: t => (c :: h) :: t
      | [] => [[c]]

/-- `String.prototype.startsWith`, over the character lists. -/
def startsWithStr (s pre : String) : Bool :=
  pre.data.isPrefixOf s.data

/-- Characters escaped by `escapeTypstText` in `utils.ts`
(the regex character class matching backslash, hash, asterisk, underscore,
backtick, square brackets, dollar, angle brackets and at-sign). -/
def typstSpecials : List Char :=
  ['\\', '#', '*', '_', backtickChar, '[', ']', '$', '<', '>', '@']

/-- `escapeTypstText` from `utils.ts`: prefix each special character with a
backslash.  The JS `String.replace` with a single-character class and a
per-character replacement is exactly a character-wise flat map. -/
def escapeTypstText (input : String) : String :=
  String.mk (input.data.flatMap fun c =>
    if typstSpecials.contains c then ['\\', c] else [c])

/-- `escapeTypstString` from `utils.ts`: escape backslashes, double quotes and
newlines inside Typst string literals.  The source chains three
single-character `replace` passes (backslash first); since the replacement
texts introduced by the quote and newline passes are never re-scanned by a
later pass, the chain equals this character-wise flat map. -/
def escapeTypstString (input : String) : String :=
  String.mk (input.data.flatMap fun c =>
    if c = '\\' then ['\\', '\\']
    else if c = '"' then ['\\', '"']
    else if c = '\n' then ['\\', 'n']
    else [c])

/-- `indentLines` from `utils.ts`: prefix every line with two spaces per
indent level; level 0 returns the text unchanged. -/
def indentLines (text : String) (indentLevel : Nat) : String :=
  if indentLevel = 0 then text
  else
    let indent := String.join (List.replicate indentLevel "  ")
    String.intercalate "\n"
      (((splitOnChar '\n' text.data).map String.mk).map fun line => indent ++ line)

/-- `normalizeText` from `utils.ts`: `(value ?? '').trim()`. -/
def normalizeText (value : Option String) : String :=
  jsTrim (value.getD "")

/-- The `.filter(isNonEmpty)` idiom from the source applied to an array of
`string | null` render results: keep exactly the non-empty strings. -/
def filterNonEmpty (xs : List (Option String)) : List String :=
  (xs.filterMap id).filter (fun s => s ≠ "")

/-- `renderTypstArray` from `utils.ts`: single-element arrays get a trailing
comma, otherwise comma-separated. -/
def renderTypstArray (items : List String) : String :=
  match items with
  | [x] => "(" ++ x ++ ",)"
  | _ => "(" ++ String.intercalate ", " items ++ ")"

/-- Accumulator loop of `maxBacktickRun` from `utils.ts`. -/
def maxBacktickRunAux : List Char → Nat → Nat → Nat
  | [], _, maxRun => maxRun
  | c :: rest, run, maxRun =>
    if c = backtickChar then
      maxBacktickRunAux rest (run + 1) (max maxRun (run + 1))
    else maxBacktickRunAux rest 0 maxRun

/-- `maxBacktickRun` from `utils.ts`: length of the longest run of
consecutive backticks. -/
def maxBacktickRun (value : String) : Nat :=
  maxBacktickRunAux value.data 0 0

/-- Numeric value of a string of decimal digits, as computed by
`parseInt(s, 10)` on an all-digit string. -/
def digitsToNat (l : List Char) : Nat :=
  l.foldl (fun n c => n * 10 + (c.toNat - 48)) 0

/-- The regex `^(\d{4})-(\d{1,2})-(\d{1,2})$` of `parseDate`
(`frontmatter.ts`): exactly two hyphens splitting the string into a 4-digit
year, a 1–2 digit month and a 1–2 digit day; on a match, the three captured
groups parsed in base 10.  Splitting on the hyphen yields exactly three
fragments precisely when the string has exactly two hyphens, so this is
equivalent to the anchored regex. -/
def isoDateMatch (s : String) : Option (Nat × Nat × Nat) :=
  match splitOnChar '-' s.data with
  | [y, m, d] =>
    if y.length = 4 ∧ y.all Char.isDigit
        ∧ (m.length = 1 ∨ m.length = 2) ∧ m.all Char.isDigit
        ∧ (d.length = 1 ∨ d.length = 2) ∧ d.all Char.isDigit then
      some (digitsToNat y, digitsToNat m, digitsToNat d)
    else none
  | _ => none

/-- `parseDate` from `frontmatter.ts`: `auto` and `none` (case-insensitively,
after trimming) pass through; an ISO `YYYY-M-D` date becomes a Typst
`datetime` constructor; everything else falls back to `auto`. -/
def parseDate (value : String) : String :=
  let v := jsToLower (jsTrim value)
  if v = "auto" then "auto"
  else if v = "none" then "none"
  else
    match isoDateMatch (jsTrim value) with
    | some (y, m, d) =>
      "datetime(day: " ++ toString d ++ ", month: " ++ toString m ++
        ", year: " ++ toString y ++ ")"
    | none => "auto"

/-! ## Error reporting (`types.ts`) -/

/-- `ErrorSeverity` from `types.ts`. -/
inductive ErrorSeverity where
  | warning
  | error
deriving DecidableEq, Repr

/-- `ConversionError` from `types.ts`.  The `details` record of the source is
flattened into the optional detail fields actually used by the pipeline
(`identifier`, `url`, `nodeType`, `latex`, `fieldType`); `originalError` is
not modelled (it carries the foreign exception object). -/
structure ConversionError where
  severity : ErrorSeverity
  message : String
  context : String
  detailIdentifier : Option String := none
  detailUrl : Option String := none
  detailNodeType : Option String := none
  detailLatex : Option String := none
  detailFieldType : Option String := none
deriving DecidableEq, Repr

/-- A call site `if (context.onError) { context.onError(e) }`: the error is
observed exactly when a callback was supplied. -/
def emitIf (hasOnError : Bool) (e : ConversionError) : List ConversionError :=
  if hasOnError then [e] else []

/-! ## The document tree (mdast fragment handled by the renderers) -/

mutual
/-- Inline (phrasing) nodes dispatched by `renderInline` in
`inline-renderer`.  `inlineMath` carries the source position as an optional
(start offset, end offset) pair, as used by the display-math heuristic.
`linkReference` carries the raw `label` field next to the `identifier`.
`unknownInline` stands for any phrasing kind outside the dispatch table
(the `default` arm returns `null`). -/
inductive Inline where
  | text (value : String)
  | strong (children : List Inline)
  | emphasis (children : List Inline)
  | delete (children : List Inline)
  | mark (children : List Inline)
  | subscript (children : List Inline)
  | superscript (children : List Inline)
  | inlineCode (value : String)
  | inlineMath (value : String) (position : Option (Nat × Nat))
  | image (url : String)
  | link (url : String) (children : List Inline)
  | linkReference (identifier : String) (label : Option String)
      (children : List Inline)
  | footnoteReference (identifier : String)
  | hardBreak
  | html (value : String)
  | unknownInline

/-- Block-level nodes dispatched by `renderBlock` in the block renderer.
`unknown` carries the node's `type` string and is handled by the `default`
arm (warning, rendered as nothing).  Tables are outside the modelled
fragment. -/
inductive Block where
  | yaml (value : String)
  | definition (identifier : String) (url : String)
  | footnoteDefinition (identifier : String) (children : List Block)
  | heading (depth : Nat) (children : List Inline)
  | paragraph (children : List Inline)
  | list (ordered : Bool) (items : List ListItem)
  | code (lang : Option String) (value : String)
  | blockquote (children : List Block)
  | thematicBreak
  | math (value : String)
  | unknown (typeName : String)

/-- A list item: a sequence of block children. -/
inductive ListItem where
  | mk (children : List Block)
end

/-- The `type` tag of a block node, as attached to error details by the
dispatch boundary. -/
def Block.typeName : Block → String
  | .yaml _ => "yaml"
  | .definition _ _ => "definition"
  | .footnoteDefinition _ _ => "footnoteDefinition"
  | .heading _ _ => "heading"
  | .paragraph _ => "paragraph"
  | .list _ _ => "list"
  | .code _ _ => "code"
  | .blockquote _ => "blockquote"
  | .thematicBreak => "thematicBreak"
  | .math _ => "math"
  | .unknown t => t

/-- Children of a list item. -/
def ListItem.children : ListItem → List Block
  | .mk cs => cs

/-! ## Insertion-ordered string maps (the JS `Map` used by the collectors) -/

/-- `Map.get`: the value stored at a key, if any. -/
def mapGet {α : Type} (m : List (String × α)) (k : String) : Option α :=
  (m.find? (fun p => p.1 = k)).map Prod.snd

/-- `Map.set`: replace the value at an existing key in place, otherwise
append; preserves insertion order like the JS `Map`. -/
def mapSet {α : Type} (m : List (String × α)) (k : String) (v : α) :
    List (String × α) :=
  if (m.find? (fun p => p.1 = k)).isSome then
    m.map (fun p => if p.1 = k then (k, v) else p)
  else m ++ [(k, v)]

/-! ## Reference collectors (`collectors` module) -/

/-- A link/image `Definition` node as stored by the collector (the fields
the renderer reads: original identifier and URL). -/
structure DefinitionNode where
  identifier : String
  url : String
deriving DecidableEq, Repr

/-- Main loop of `collectDefinitions`: walk the top-level children, record
`definition` nodes keyed by lower-cased identifier; on a duplicate key,
warn (with the current node's identifier and URL) and then overwrite. -/
def collectDefinitionsAux (hasOnError : Bool) :
    List Block → List (String × DefinitionNode) → List ConversionError →
    List (String × DefinitionNode) × List ConversionError
  | [], m, errs => (m, errs)
  | node :: rest, m, errs =>
    match node with
    | .definition ident url =>
      let key := jsToLower ident
      let errs' := errs ++
        (if (mapGet m key).isSome then
          emitIf hasOnError
            { severity := .warning
              message := "Duplicate link/image definition found: [" ++ ident ++ "]"
              context := "definition collection"
              detailIdentifier := some ident
              detailUrl := some url }
        else [])
      collectDefinitionsAux hasOnError rest (mapSet m key ⟨ident, url⟩) errs'
    | _ => collectDefinitionsAux hasOnError rest m errs

/-- `collectDefinitions` from the collectors module (the outer try/catch is
unreachable in this model: the loop body is total). -/
def collectDefinitions (hasOnError : Bool) (root : List Block) :
    List (String × DefinitionNode) × List ConversionError :=
  collectDefinitionsAux hasOnError root [] []

/-- Main loop of `collectFootnotes`: identical shape, keyed by lower-cased
identifier, storing the footnote definition's block children. -/
def collectFootnotesAux (hasOnError : Bool) :
    List Block → List (String × List Block) → List ConversionError →
    List (String × List Block) × List ConversionError
  | [], m, errs => (m, errs)
  | node :: rest, m, errs =>
    match node with
    | .footnoteDefinition ident children =>
      let key := jsToLower ident
      let errs' := errs ++
        (if (mapGet m key).isSome then
          emitIf hasOnError
            { severity := .warning
              message := "Duplicate footnote definition found: [^" ++ ident ++ "]"
              context := "footnote collection"
              detailIdentifier := some ident }
        else [])
      collectFootnotesAux hasOnError rest (mapSet m key children) errs'
    | _ => collectFootnotesAux hasOnError rest m errs

/-- `collectFootnotes` from the collectors module. -/
def collectFootnotes (hasOnError : Bool) (root : List Block) :
    List (String × List Block) × List ConversionError :=
  collectFootnotesAux hasOnError root [] []

/-! ## Options, frontmatter and merged metadata (`types.ts`, `frontmatter.ts`) -/

/-- `Markdown2TypstOptions` from `types.ts`.  The `author` field may be a
string or an array (`String ⊕ List String`); `hasOnError` records whether an
`onError` callback was supplied. -/
structure Markdown2TypstOptions where
  title : Option String := none
  author : Option (String ⊕ List String) := none
  authors : Option (List String) := none
  description : Option String := none
  keywords : Option (List String) := none
  date : Option String := none
  abstract : Option String := none
  lang : Option String := none
  language : Option String := none
  region : Option String := none
  useH1AsTitle : Bool := false
  hasOnError : Bool := false

/-- `Frontmatter` from `types.ts`: the decoded YAML fields. -/
structure Frontmatter where
  title : Option String := none
  author : Option (String ⊕ List String) := none
  authors : Option (List String) := none
  description : Option String := none
  keywords : Option (List String) := none
  date : Option String := none
  abstract : Option String := none
  lang : Option String := none
  language : Option String := none
  region : Option String := none

/-- `DocumentMetadata` from `types.ts`: the merged result. -/
structure DocumentMetadata where
  title : String
  authors : List String
  description : Option String
  keywords : Option (List String)
  date : Option String
  abstract : Option String
  lang : Option String
  region : Option String

/-- The author-normalisation expression of `mergeMetadata`:
`authors ?? (typeof author === 'string' ? [author] : author) ?? []`. -/
def normalizeAuthors (authors : Option (List String))
    (author : Option (String ⊕ List String)) : List String :=
  match authors with
  | some l => l
  | none =>
    match author with
    | some (Sum.inl s) => [s]
    | some (Sum.inr l) => l
    | none => []

/-- `mergeMetadata` from `frontmatter.ts`.  The external language/region
normalisation tables (`coerceLanguage`, `coerceRegion` over the `langs` and
`country-list` packages) are parameters; applying them to an absent value
yields an absent value, as in the source where both return `undefined` on
`undefined` input. -/
def mergeMetadata (coerceLanguage coerceRegion : String → Option String)
    (options : Markdown2TypstOptions) (frontmatter : Frontmatter)
    (leadingTitle : Option String) : DocumentMetadata :=
  let title := ((options.title.or frontmatter.title).or leadingTitle).getD ""
  let optionsAuthors := normalizeAuthors options.authors options.author
  let frontmatterAuthors := normalizeAuthors frontmatter.authors frontmatter.author
  let authors :=
    if optionsAuthors.length > 0 then optionsAuthors else frontmatterAuthors
  let lang :=
    (((options.lang.or options.language).or frontmatter.lang).or
        frontmatter.language).bind coerceLanguage
  let region := (options.region.or frontmatter.region).bind coerceRegion
  { title := title
    authors := authors
    description := options.description.or frontmatter.description
    keywords := options.keywords.or frontmatter.keywords
    date := options.date.or frontmatter.date
    abstract := options.abstract.or frontmatter.abstract
    lang := lang
    region := region }

/-! ## Frontmatter decoding (`frontmatter.ts` over the external `js-yaml`) -/

/-- A decoded YAML scalar/array value as inspected by
`parseFrontmatterYaml`: a string, an array, a `Date` object (carrying the
`YYYY-MM-DD` part of its ISO form), or any other value (carrying its JS
`typeof` string). -/
inductive YamlValue where
  | str (s : String)
  | arr (items : List YamlValue)
  | dateObj (iso : String)
  | other (typeofName : String)

/-- A decoded YAML mapping (JS object): key/value pairs with unique keys. -/
def YamlRecord := List (String × YamlValue)

/-- Property lookup `key in parsed` / `parsed[key]`. -/
def yamlGet (rec : YamlRecord) (k : String) : Option YamlValue :=
  (List.find? (fun p => p.1 = k) rec).map Prod.snd

/-- The JS `typeof` of a decoded YAML value (strings are `"string"`,
arrays and `Date`s are `"object"`). -/
def YamlValue.typeofName : YamlValue → String
  | .str _ => "string"
  | .arr _ => "object"
  | .dateObj _ => "object"
  | .other t => t

/-- `.filter(a => typeof a === 'string')` over a decoded array. -/
def filterStrings (items : List YamlValue) : List String :=
  items.filterMap fun v => match v with | .str s => some s | _ => none

/-- `parseFrontmatterYaml` from `frontmatter.ts`, parameterised by the
external `js-yaml` loader.  `Except.error` models a thrown parse exception;
`Except.ok none` models a result that is `null`/not an object.  Field
extraction keeps only correctly-typed fields; a present but mistyped
`author` field draws a warning. -/
def parseFrontmatterYaml
    (yamlLoad : String → Except String (Option YamlRecord))
    (hasOnError : Bool) (yaml : String) :
    Frontmatter × List ConversionError :=
  match yamlLoad yaml with
  | .error msg =>
    ({}, emitIf hasOnError
      { severity := .warning
        message := "Failed to parse YAML frontmatter: " ++ msg
        context := "frontmatter parsing" })
  | .ok none =>
    ({}, emitIf hasOnError
      { severity := .warning
        message := "YAML frontmatter is empty or not an object"
        context := "frontmatter parsing" })
  | .ok (some rec) =>
    let title := match yamlGet rec "title" with
      | some (.str s) => some s
      | _ => none
    let authorPair : Option (String ⊕ List String) × List ConversionError :=
      match yamlGet rec "author" with
      | some (.str s) => (some (Sum.inl s), [])
      | some (.arr items) => (some (Sum.inr (filterStrings items)), [])
      | some v =>
        (none, emitIf hasOnError
          { severity := .warning
            message := "Frontmatter \"author\" field must be a string or array of strings"
            context := "frontmatter parsing"
            detailFieldType := some v.typeofName })
      | none => (none, [])
    let authors := match yamlGet rec "authors" with
      | some (.arr items) => some (filterStrings items)
      | _ => none
    let description := match yamlGet rec "description" with
      | some (.str s) => some s
      | _ => none
    let keywords := match yamlGet rec "keywords" with
      | some (.arr items) => some (filterStrings items)
      | _ => none
    let date := match yamlGet rec "date" with
      | some (.str s) => some s
      | some (.dateObj iso) => some iso
      | _ => none
    let abstract := match yamlGet rec "abstract" with
      | some (.str s) => some s
      | _ => none
    let lang := match yamlGet rec "lang" with
      | some (.str s) => some s
      | _ => none
    let language := match yamlGet rec "language" with
      | some (.str s) => some s
      | _ => none
    let region := match yamlGet rec "region" with
      | some (.str s) => some s
      | _ => none
    ({ title := title, author := authorPair.1, authors := authors
       description := description, keywords := keywords, date := date
       abstract := abstract, lang := lang, language := language
       region := region }, authorPair.2)

/-- The first `yaml` node among the root's children, if any. -/
def findYamlNode : List Block → Option String
  | [] => none
  | .yaml v :: _ => some v
  | _ :: rest => findYamlNode rest

/-- `parseFrontmatter` from `frontmatter.ts`: decode the first `yaml` child;
an absent node or empty value yields the empty frontmatter. -/
def parseFrontmatter
    (yamlLoad : String → Except String (Option YamlRecord))
    (hasOnError : Bool) (root : List Block) :
    Frontmatter × List ConversionError :=
  match findYamlNode root with
  | none => ({}, [])
  | some v =>
    if v = "" then ({}, [])
    else parseFrontmatterYaml yamlLoad hasOnError v

/-! ## Render context and writer-style render results -/

/-- `RenderContext` from `types.ts`: the collector maps, the external math
converter, and whether an `onError` callback was supplied.  The mutable
`warnings.externalImages` flag appears as the `ext` component of each render
result (write-only during rendering, read afterwards by the assembler). -/
structure RenderContext where
  definitions : List (String × DefinitionNode)
  footnoteDefinitions : List (String × List Block)
  t2t : String → Except String String
  hasOnError : Bool

/-- Result of rendering a single node (`string | null` in the source),
together with the errors reported and whether a remote image was seen. -/
structure ROut where
  out : Option String
  errs : List ConversionError := []
  ext : Bool := false
deriving Repr, DecidableEq

/-- Result of a renderer returning a plain string. -/
structure RStr where
  str : String
  errs : List ConversionError := []
  ext : Bool := false
deriving Repr, DecidableEq

/-- Result of mapping a renderer over a list of nodes, before
filtering/joining. -/
structure RList where
  outs : List (Option String) := []
  errs : List ConversionError := []
  ext : Bool := false
deriving Repr

/-- Result of the line-accumulating loops of the list-item renderer. -/
structure RLines where
  lines : List String := []
  errs : List ConversionError := []
  ext : Bool := false
deriving Repr

/-! ## Simple (non-recursive) renderers -/

/-- The test `/^https?:\/\//i.test(node.url)` of `renderImage`. -/
def isExternalUrl (url : String) : Bool :=
  startsWithStr (jsToLower url) "http://" || startsWithStr (jsToLower url) "https://"

/-- `renderImage` from the inline renderer: remote (http/https) images set
the renderer-wide flag and become an `#external-image` construct; local
paths become a direct `#image` embed.  (The try/catch around the escaping
helper is dead: the helper is total.) -/
def renderImage (url : String) : ROut :=
  if isExternalUrl url then
    { out := some ("#external-image(\n  \"" ++ escapeTypstString url ++ "\"\n)")
      ext := true }
  else
    { out := some ("#image(\"" ++ escapeTypstString url ++ "\")") }

/-- `renderInlineCode` from the inline renderer: escape embedded backticks,
wrap in backticks. -/
def renderInlineCode (value : String) : String :=
  let escaped := String.mk (value.data.flatMap fun c =>
    if c = backtickChar then ['\\', backtickChar] else [c])
  String.singleton backtickChar ++ escaped ++ String.singleton backtickChar

/-- Shared body of `renderLink` and the resolved branch of
`renderLinkReference`: a `#link` call whose visible label falls back to the
escaped URL when the rendered label is blank. -/
def renderLinkWith (url : String) (label : String) : String :=
  let u := escapeTypstString url
  if jsTrim label = "" then "#link(\"" ++ u ++ "\")[" ++ escapeTypstText url ++ "]"
  else "#link(\"" ++ u ++ "\")[" ++ label ++ "]"

/-- The fallback text `node.label || node.identifier` of
`renderLinkReference`. -/
def labelOrIdentifier (label : Option String) (identifier : String) : String :=
  match label with
  | some l => if l ≠ "" then l else identifier
  | none => identifier

/-- `value.replace(/\n$/, '')` of `renderCodeBlock`: drop one trailing
newline if present. -/
def stripTrailingNewline (s : String) : String :=
  match s.data.getLast? with
  | some c => if c = '\n' then String.mk s.data.dropLast else s
  | none => s

/-- The fence chosen by `renderCodeBlock` for an (already newline-stripped)
code value: backticks repeated `max(3, maxBacktickRun(v) + 1)` times. -/
def codeFence (v : String) : String :=
  String.mk (List.replicate (max 3 (maxBacktickRun v + 1)) backtickChar)

/-- `renderCodeBlock` from the block renderer: fence length strictly above
the longest embedded backtick run (minimum 3), optional language tag glued
to the opening fence, body and closing fence, all indented. -/
def renderCodeBlock (lang : Option String) (value : String)
    (indentLevel : Nat) : String :=
  let info := match lang with
    | some l => if jsTrim l ≠ "" then jsTrim l else ""
    | none => ""
  let v := stripTrailingNewline value
  let fence := codeFence v
  let openFence := if info ≠ "" then fence ++ info else fence
  String.intercalate "\n"
    [indentLines openFence indentLevel, indentLines v indentLevel,
      indentLines fence indentLevel]

/-- `renderMathBlock` from the block renderer: convert the trimmed LaTeX
through the external converter; on failure warn and fall back to the raw
LaTeX; both paths are wrapped in spaced block-math delimiters. -/
def renderMathBlock (t2t : String → Except String String) (hasOnError : Bool)
    (value : String) (indentLevel : Nat) : ROut :=
  let v := jsTrim value
  match t2t v with
  | .ok typstMath =>
    { out := some (indentLines ("$ " ++ typstMath ++ " $") indentLevel) }
  | .error msg =>
    { out := some (indentLines ("$ " ++ v ++ " $") indentLevel)
      errs := emitIf hasOnError
        { severity := .warning
          message := "Failed to convert block math LaTeX to Typst: " ++ msg
          context := "block math rendering"
          detailLatex := some v } }

/-! ## Plain-text extraction (`plainTextFromPhrasing` in `utils.ts`) -/

mutual
/-- `plainTextFromPhrasing`: concatenate the plain text of each node. -/
def plainTextFromPhrasing :
    Nat → List Inline → List (String × DefinitionNode) → String
  | 0, _, _ => ""
  | _ + 1, [], _ => ""
  | fuel + 1, node :: rest, defs =>
    plainTextFromPhrasingNode fuel node defs ++
      plainTextFromPhrasing fuel rest defs

termination_by structural fuel => fuel

/-- `plainTextFromPhrasingNode`: strip formatting, resolve link references
to their URL when the label is blank, keep code/text verbatim, everything
else contributes nothing. -/
def plainTextFromPhrasingNode :
    Nat → Inline → List (String × DefinitionNode) → String
  | 0, _, _ => ""
  | fuel + 1, node, defs =>
    match node with
    | .text v => v
    | .strong ch => plainTextFromPhrasing fuel ch defs
    | .emphasis ch => plainTextFromPhrasing fuel ch defs
    | .inlineCode v => v
    | .link _ ch => plainTextFromPhrasing fuel ch defs
    | .linkReference ident lbl ch =>
      let label := plainTextFromPhrasing fuel ch defs
      if jsTrim label ≠ "" then label
      else
        match mapGet defs (jsToLower ident) with
        | some d => d.url
        | none => labelOrIdentifier lbl ident
    | .hardBreak => "\n"
    | _ => ""
termination_by structural fuel => fuel

end

/-! ## The recursive renderers (inline renderer and block renderer).

The fuel argument bounds the recursion depth; every recursive call descends
one fuel step, mirroring the bounded JS call stack.  All results are exact
for any fuel exceeding the (finite) recursion depth of the given input. -/

mutual
/-- `renderInline` from the inline renderer: the full dispatch table over
phrasing nodes. -/
def renderInline : Nat → Inline → RenderContext → ROut
  | 0, _, _ => { out := none }
  | fuel + 1, node, ctx =>
    match node with
    | .text v => { out := some (escapeTypstText v) }
    | .strong ch =>
      let r := renderInlines fuel ch ctx
      { out := some ("*" ++ r.str ++ "*"), errs := r.errs, ext := r.ext }
    | .emphasis ch =>
      let r := renderInlines fuel ch ctx
      { out := some ("_" ++ r.str ++ "_"), errs := r.errs, ext := r.ext }
    | .delete ch =>
      let r := renderInlines fuel ch ctx
      { out := some ("#strike[" ++ r.str ++ "]"), errs := r.errs, ext := r.ext }
    | .mark ch =>
      let r := renderInlines fuel ch ctx
      { out := some ("#highlight[" ++ r.str ++ "]"), errs := r.errs
        ext := r.ext }
    | .subscript ch =>
      let r := renderInlines fuel ch ctx
      { out := some ("#sub[" ++ r.str ++ "]"), errs := r.errs, ext := r.ext }
    | .superscript ch =>
      let r := renderInlines fuel ch ctx
      { out := some ("#super[" ++ r.str ++ "]"), errs := r.errs, ext := r.ext }
    | .footnoteReference ident =>
      match mapGet ctx.footnoteDefinitions (jsToLower ident) with
      | none =>
        { out := some ""
          errs := emitIf ctx.hasOnError
            { severity := .warning
              message := "Footnote reference [^" ++ ident ++
                "] has no matching definition"
              context := "inline rendering"
              detailIdentifier := some ident } }
      | some children =>
        let r := renderBlocks fuel children 0 ctx
        let content := String.intercalate " " (filterNonEmpty r.outs)
        { out := some ("#footnote[" ++ jsTrim content ++ "]")
          errs := r.errs, ext := r.ext }
    | .inlineCode v => { out := some (renderInlineCode v) }
    | .inlineMath v pos =>
      let value := jsTrim v
      let isDisplayMath :=
        match pos with
        | some (s, e) => decide (value.length + 4 ≤ e - s)
        | none => false
      match ctx.t2t value with
      | .ok typstMath =>
        { out := some (if isDisplayMath then "$ " ++ typstMath ++ " $"
            else "$" ++ typstMath ++ "$") }
      | .error msg =>
        { out := some (if isDisplayMath then "$ " ++ value ++ " $"
            else "$" ++ value ++ "$")
          errs := emitIf ctx.hasOnError
            { severity := .warning
              message := "Failed to convert inline math LaTeX to Typst: " ++ msg
              context := "inline math rendering"
              detailLatex := some value } }
    | .image url => renderImage url
    | .link url ch =>
      let r := renderInlines fuel ch ctx
      { out := some (renderLinkWith url r.str), errs := r.errs, ext := r.ext }
    | .linkReference ident lbl ch =>
      let r := renderInlines fuel ch ctx
      match mapGet ctx.definitions (jsToLower ident) with
      | none =>
        { out := some (if r.str ≠ "" then r.str
            else escapeTypstText (labelOrIdentifier lbl ident))
          errs := r.errs ++ emitIf ctx.hasOnError
            { severity := .warning
              message := "Link reference [" ++ ident ++
                "] has no matching definition"
              context := "inline rendering"
              detailIdentifier := some ident }
          ext := r.ext }
      | some d =>
        { out := some (renderLinkWith d.url r.str), errs := r.errs
          ext := r.ext }
    | .hardBreak => { out := some "\\\n" }
    | .html v => { out := some (escapeTypstText v) }
    | .unknownInline => { out := none }

termination_by structural fuel => fuel

/-- `renderInlines`: map `renderInline` over the nodes, drop null/empty
results, join with the empty separator (plain concatenation). -/
def renderInlines : Nat → List Inline → RenderContext → RStr
  | 0, _, _ => { str := "" }
  | _ + 1, [], _ => { str := "" }
  | fuel + 1, node :: rest, ctx =>
    let r := renderInline fuel node ctx
    let rs := renderInlines fuel rest ctx
    { str := (r.out.getD "") ++ rs.str
      errs := r.errs ++ rs.errs
      ext := r.ext || rs.ext }

termination_by structural fuel => fuel

/-- `renderParagraph` from the block renderer: the `[toc]` special case,
otherwise the rendered inline content. -/
def renderParagraph : Nat → List Inline → RenderContext → RStr
  | 0, _, _ => { str := "" }
  | fuel + 1, ch, ctx =>
    if jsToLower (jsTrim (plainTextFromPhrasing (fuel + 1) ch ctx.definitions))
        = "[toc]" then
      { str := "#outline(title: auto, indent: auto)" }
    else renderInlines fuel ch ctx

termination_by structural fuel => fuel

/-- `renderBlock` from the block renderer: the dispatch table over block
nodes.  The surrounding try/catch of the source is dead in this model (the
dispatch body is total); its behaviour is modelled separately by
`renderBlockCaught` below. -/
def renderBlock : Nat → Block → Nat → RenderContext → ROut
  | 0, _, _, _ => { out := none }
  | fuel + 1, node, indentLevel, ctx =>
    match node with
    | .yaml _ => { out := none }
    | .definition _ _ => { out := none }
    | .footnoteDefinition _ _ => { out := none }
    | .heading depth ch =>
      let level := min (max depth 1) 6
      let r := renderInlines fuel ch ctx
      { out := some (indentLines
          (String.mk (List.replicate level '=') ++ " " ++ r.str) indentLevel)
        errs := r.errs, ext := r.ext }
    | .paragraph ch =>
      let r := renderParagraph fuel ch ctx
      { out := some (indentLines r.str indentLevel), errs := r.errs
        ext := r.ext }
    | .list ordered items =>
      let r := renderList fuel ordered items indentLevel ctx
      { out := some r.str, errs := r.errs, ext := r.ext }
    | .code lang value =>
      { out := some (renderCodeBlock lang value indentLevel) }
    | .blockquote ch =>
      let r := renderBlocks fuel ch 0 ctx
      let body := String.intercalate "\n\n" (filterNonEmpty r.outs)
      let openQuote := indentLines "#quote[" indentLevel
      { out := some (if jsTrim body = "" then
            openQuote ++ "\n" ++ indentLines "]" indentLevel
          else String.intercalate "\n"
            [openQuote, indentLines body (indentLevel + 1),
              indentLines "]" indentLevel])
        errs := r.errs, ext := r.ext }
    | .thematicBreak =>
      { out := some (indentLines "#line(length: 100%, stroke: 0.6pt)"
          indentLevel) }
    | .math value => renderMathBlock ctx.t2t ctx.hasOnError value indentLevel
    | .unknown t =>
      { out := none
        errs := emitIf ctx.hasOnError
          { severity := .warning
            message := "Unknown block node type: " ++ t
            context := "block rendering"
            detailNodeType := some t } }

termination_by structural fuel => fuel

/-- `renderList` from the block renderer: render items, drop empty renders,
join with newlines. -/
def renderList : Nat → Bool → List ListItem → Nat → RenderContext → RStr
  | 0, _, _, _, _ => { str := "" }
  | fuel + 1, ordered, items, indentLevel, ctx =>
    let marker := if ordered then "+" else "-"
    let r := renderListItems fuel items marker indentLevel ctx
    { str := String.intercalate "\n" (r.lines.filter (fun s => s ≠ ""))
      errs := r.errs, ext := r.ext }

termination_by structural fuel => fuel

/-- The map of `renderListItem` over a list's items. -/
def renderListItems :
    Nat → List ListItem → String → Nat → RenderContext → RLines
  | 0, _, _, _, _ => { lines := [] }
  | _ + 1, [], _, _, _ => { lines := [] }
  | fuel + 1, item :: rest, marker, indentLevel, ctx =>
    let r := renderListItem fuel item marker indentLevel ctx
    let rs := renderListItems fuel rest marker indentLevel ctx
    { lines := r.str :: rs.lines, errs := r.errs ++ rs.errs
      ext := r.ext || rs.ext }

termination_by structural fuel => fuel

/-- `renderListItem` from the block renderer: a leading paragraph is glued
to the marker line and the remaining children render at the next indent
level; otherwise a bare marker line precedes all children. -/
def renderListItem : Nat → ListItem → String → Nat → RenderContext → RStr
  | 0, _, _, _, _ => { str := "" }
  | fuel + 1, item, marker, indentLevel, ctx =>
    let baseIndent := String.join (List.replicate indentLevel "  ")
    match item.children with
    | Block.paragraph pch :: rest =>
      let p := renderParagraph fuel pch ctx
      let r := renderItemChildren fuel rest (indentLevel + 1) ctx
      { str := String.intercalate "\n"
          ((baseIndent ++ marker ++ " " ++ p.str) :: r.lines)
        errs := p.errs ++ r.errs, ext := p.ext || r.ext }
    | children =>
      let r := renderItemChildren fuel children (indentLevel + 1) ctx
      { str := String.intercalate "\n" ((baseIndent ++ marker) :: r.lines)
        errs := r.errs, ext := r.ext }

termination_by structural fuel => fuel

/-- The child loop of `renderListItem`: nested lists are pushed
unconditionally at the nested indent level; other blocks are pushed only
when they render to something non-empty. -/
def renderItemChildren : Nat → List Block → Nat → RenderContext → RLines
  | 0, _, _, _ => { lines := [] }
  | _ + 1, [], _, _ => { lines := [] }
  | fuel + 1, child :: rest, nestedIndentLevel, ctx =>
    let tail := renderItemChildren fuel rest nestedIndentLevel ctx
    match child with
    | .list ordered items =>
      let r := renderList fuel ordered items nestedIndentLevel ctx
      { lines := r.str :: tail.lines, errs := r.errs ++ tail.errs
        ext := r.ext || tail.ext }
    | _ =>
      let r := renderBlock fuel child nestedIndentLevel ctx
      { lines := (match r.out with
          | some s => if s ≠ "" then [s] else []
          | none => []) ++ tail.lines
        errs := r.errs ++ tail.errs, ext := r.ext || tail.ext }

termination_by structural fuel => fuel

/-- The map of the dispatch boundary over a list of sibling block nodes. -/
def renderBlocks : Nat → List Block → Nat → RenderContext → RList
  | 0, _, _, _ => { outs := [] }
  | _ + 1, [], _, _ => { outs := [] }
  | fuel + 1, node :: rest, indentLevel, ctx =>
    let r := renderBlock fuel node indentLevel ctx
    let rs := renderBlocks fuel rest indentLevel ctx
    { outs := r.out :: rs.outs, errs := r.errs ++ rs.errs
      ext := r.ext || rs.ext }
termination_by structural fuel => fuel

end

/-! ## The dispatch boundary of `renderBlock` (fault isolation, `C6`) -/

/-- Outcome of the body of `renderBlock`'s try block in JS: a normal result,
or a thrown exception carrying its message together with the side effects
(errors already reported, warnings flag already written) performed before
the throw — exceptions do not roll back those effects. -/
inductive JSOutcome where
  | ok (r : ROut)
  | thrown (msg : String) (errs : List ConversionError) (ext : Bool)

/-- The try/catch wrapper of `renderBlock` (`block-renderer`, the dispatch
boundary), parameterised by the body of the try block: a thrown exception
is caught, reported as an `error` carrying the node's kind, and the node
renders as nothing (`null`). -/
def renderBlockCaught (body : Block → Nat → JSOutcome) (hasOnError : Bool)
    (node : Block) (indentLevel : Nat) : ROut :=
  match body node indentLevel with
  | .ok r => r
  | .thrown msg errs ext =>
    { out := none
      errs := errs ++ emitIf hasOnError
        { severity := .error
          message := "Error rendering block node: " ++ msg
          context := "block rendering"
          detailNodeType := some node.typeName }
      ext := ext }

/-! ## Leading-title extraction (`findLeadingH1` in `collectors`) -/

/-- The indexed scan of `findLeadingH1`: skip `yaml` and `definition`
nodes; stop at the first other node, which must be a depth-1 heading with
non-blank flattened text. -/
def findLeadingH1Aux (fuel : Nat) (defs : List (String × DefinitionNode)) :
    List Block → Nat → Option (String × Nat)
  | [], _ => none
  | node :: rest, i =>
    match node with
    | .yaml _ => findLeadingH1Aux fuel defs rest (i + 1)
    | .definition _ _ => findLeadingH1Aux fuel defs rest (i + 1)
    | .heading depth ch =>
      if depth = 1 then
        let title := jsTrim (plainTextFromPhrasing fuel ch defs)
        if title ≠ "" then some (title, i) else none
      else none
    | _ => none

/-- `findLeadingH1` from the collectors module (its try/catch is dead in
this model: the scan body is total). -/
def findLeadingH1 (fuel : Nat) (defs : List (String × DefinitionNode))
    (root : List Block) : Option (String × Nat) :=
  findLeadingH1Aux fuel defs root 0

/-! ## Output assembly (`output-builder.ts`) -/

/-- JS truthiness of a `string | undefined` value: present and non-empty. -/
def optTruthy (o : Option String) : Bool :=
  match o with
  | some s => s ≠ ""
  | none => false

/-- The warnings/helper preamble emitted when remote images were detected:
the exact section built by `buildWarningsSection`, lines joined by
newlines. -/
def warningsSectionText : String :=
  String.intercalate "\n"
    [ "// " ++ eqRuler 25 ++ " WARNINGS " ++ eqRuler 25
    , ""
    , "// " ++ dashRuler 60
    , "// NOTE: The conversion did not work perfectly due to intrinsic"
    , "// Markdown to Typst limitations. The following custom"
    , "// functions, set or show rules are used to visually display"
    , "// these minor conversion warnings to the user."
    , "// " ++ dashRuler 60
    , ""
    , "// EXTERNAL IMAGES WERE DETECTED!"
    , "#let external-image(url) = \x7b"
    , "  rect(radius: 4pt, inset: 20pt,)["
    , "    #align(center)["
    , "      #text()["
    , "        External image detected: \\"
    , "        #link(url)"
    , "      ]"
    , "    ]"
    , "  ]"
    , "\x7d"
    , ""
    , "// " ++ eqRuler 60 ]

/-- `buildWarningsSection` from `output-builder.ts`: the helper preamble
when the remote-image flag is set, otherwise nothing. -/
def buildWarningsSection (externalImages : Bool) : Option String :=
  if externalImages then some warningsSectionText else none

/-- The `#set document(...)` argument lines: two spaces of indentation and
a trailing comma on every argument but the last. -/
def docArgLines : List String → List String
  | [] => []
  | [a] => ["  " ++ a]
  | a :: rest => ("  " ++ a ++ ",") :: docArgLines rest

/-- `filter((_, index) => index !== leadingTitleIndex)` over the root's
children. -/
def removeIndex {α : Type} (l : List α) (idx : Nat) : List α :=
  (l.enum.filter (fun p => p.1 ≠ idx)).map Prod.snd

/-- Result of a full conversion: the output text and the sequence of
errors that were passed to the `onError` callback. -/
structure ConvertResult where
  output : String
  errs : List ConversionError
deriving Repr

/-- The `nodesForBody` selection of `buildOutput`: drop the consumed
leading-title node when a leading-title index exists and the merged title is
non-blank. -/
def nodesForBody (tree : List Block) (title : String)
    (leadingTitleIndex : Option Nat) : List Block :=
  match leadingTitleIndex with
  | some idx => if jsTrim title ≠ "" then removeIndex tree idx else tree
  | none => tree

/-- The metadata-only prefix of the `parts` array built by `buildOutput`
from `output-builder.ts`, in push order: the metadata declaration block,
the abstract binding, the centered title block, the language/region
directive and the closing comment (everything `buildOutput` pushes before
the warnings section and the body; these parts depend only on the merged
metadata).

The catch around `parseDate` is dead code: `parseDate` is total (theorem
`C10_parseDate_total_shape`), so the date argument always comes from the
success path.  The outer catch is likewise dead: every step of this model
is total. -/
def metadataParts (metadata : DocumentMetadata) : List String :=
  let title := metadata.title
  let authors := metadata.authors
  let hasMetadata := title ≠ "" || authors ≠ [] || optTruthy metadata.description
    || optTruthy metadata.date
    || (match metadata.keywords with | some ks => ks ≠ [] | none => false)
  let docArgs :=
    (if title ≠ "" then ["title: [" ++ title ++ "]"] else [])
    ++ (if authors ≠ [] then
        ["author: " ++ renderTypstArray
          (authors.map fun a => "\"" ++ escapeTypstString a ++ "\"")]
      else [])
    ++ (match metadata.description with
      | some d => if d ≠ "" then ["description: [" ++ d ++ "]"] else []
      | none => [])
    ++ (match metadata.keywords with
      | some ks => if ks ≠ [] then
          ["keywords: " ++ renderTypstArray
            (ks.map fun k => "\"" ++ escapeTypstString k ++ "\"")]
        else []
      | none => [])
    ++ (match metadata.date with
      | some dt => if dt ≠ "" then ["date: " ++ parseDate dt] else []
      | none => [])
  let metaParts :=
    if hasMetadata then
      ["// " ++ eqRuler 15 ++ "  FRONTMATTER  " ++ eqRuler 15, "",
        "#set document("] ++ docArgLines docArgs ++ [")"]
    else []
  let parts1 := metaParts
  let parts2 := parts1 ++
    (match metadata.abstract with
    | some ab =>
      if ab ≠ "" then
        (if parts1 ≠ [] then [""] else []) ++ ["#let abstract = [" ++ ab ++ "]"]
      else []
    | none => [])
  let centerLines :=
    (if title ≠ "" then ["#title() \\ \\"] else [])
    ++ (if authors ≠ [] then
        ["#context document.author.join(\", \", last: \" & \") \\ \\"]
      else [])
    ++ (if optTruthy metadata.date then
        ["#context document.date.display() \\ \\ "]
      else [])
    ++ (if optTruthy metadata.abstract then ["\\ *Abstract* \\", "#abstract"]
      else [])
  let parts3 := parts2 ++
    (if (title ≠ "" || authors ≠ [] || optTruthy metadata.date
          || optTruthy metadata.abstract) && hasMetadata then
      ["", "#align(center)[", "  " ++ String.intercalate " " centerLines, "]"]
    else [])
  let textArgs :=
    (match metadata.lang with
    | some l => if l ≠ "" then ["lang: \"" ++ l ++ "\""] else []
    | none => [])
    ++ (match metadata.region with
    | some r => if r ≠ "" then ["region: \"" ++ r ++ "\""] else []
    | none => [])
  let parts4 := parts3 ++
    (if optTruthy metadata.lang || optTruthy metadata.region then
      (if parts3 ≠ [] then [""] else []) ++
        ["#set text(" ++ String.intercalate ", " textArgs ++ ")"]
    else [])
  parts4 ++
    (if hasMetadata then
      ["", "//  " ++ eqRuler 44]
    else [])

/-- The `parts` array built by `buildOutput`: the metadata sections, then
the warnings preamble when the remote-image flag was set during body
rendering, then the body. -/
def buildOutputParts (fuel : Nat) (tree : List Block)
    (metadata : DocumentMetadata) (leadingTitleIndex : Option Nat)
    (ctx : RenderContext) : List String :=
  let rb := renderBlocks fuel (nodesForBody tree metadata.title leadingTitleIndex) 0 ctx
  let body := String.intercalate "\n\n" (filterNonEmpty rb.outs)
  let parts6 := metadataParts metadata ++
    (match buildWarningsSection rb.ext with
    | some w => ["", w]
    | none => [])
  parts6 ++
    (if parts6 ≠ [] && body ≠ "" then [""] else []) ++
    (if body ≠ "" then [body] else [])

/-- `buildOutput` from `output-builder.ts`: join the assembled parts by
newlines; with no parts at all, the body alone is returned.  The errors are
exactly those reported while rendering the body. -/
def buildOutput (fuel : Nat) (tree : List Block) (metadata : DocumentMetadata)
    (leadingTitleIndex : Option Nat) (ctx : RenderContext) : ConvertResult :=
  let rb := renderBlocks fuel (nodesForBody tree metadata.title leadingTitleIndex) 0 ctx
  let body := String.intercalate "\n\n" (filterNonEmpty rb.outs)
  let parts := buildOutputParts fuel tree metadata leadingTitleIndex ctx
  { output := if parts ≠ [] then String.intercalate "\n" parts else body
    errs := rb.errs }

/-! ## The full pipeline (`markdown2typst.ts`, post-parse stages 2 to 5) -/

/-- `markdown2typst` from `markdown2typst.ts`, starting from the parsed
tree (stage 1, the external remark parser, is the upstream black box):
collect definitions and footnotes, decode frontmatter, optionally extract
the leading H1 title, merge metadata, and assemble the output.  The
returned error list is the sequence of `onError` invocations. -/
def markdown2typst (fuel : Nat) (t2t : String → Except String String)
    (coerceLanguage coerceRegion : String → Option String)
    (yamlLoad : String → Except String (Option YamlRecord))
    (tree : List Block) (options : Markdown2TypstOptions) : ConvertResult :=
  let defsR := collectDefinitions options.hasOnError tree
  let fnR := collectFootnotes options.hasOnError tree
  let fmR := parseFrontmatter yamlLoad options.hasOnError tree
  let leadingH1 :=
    if options.useH1AsTitle then findLeadingH1 fuel defsR.1 tree else none
  let metadata := mergeMetadata coerceLanguage coerceRegion options fmR.1
    (leadingH1.map Prod.fst)
  let ctx : RenderContext :=
    { definitions := defsR.1, footnoteDefinitions := fnR.1, t2t := t2t
      hasOnError := options.hasOnError }
  let r := buildOutput fuel tree metadata (leadingH1.map Prod.snd) ctx
  { output := r.output, errs := defsR.2 ++ fnR.2 ++ fmR.2 ++ r.errs }

/-! ## Substring occurrence counting (used to state containment claims) -/

/-- Number of positions of `s` at which `pat` occurs as a contiguous
sublist. -/
def countOccurrences (pat s : List Char) : Nat :=
  (List.range (s.length + 1)).countP (fun i => pat.isPrefixOf (s.drop i))

/-! ## Concrete instances used by witnesses and counterexamples -/

/-- A render context with no collected definitions, a converter that echoes
its input, and a callback supplied. -/
def emptyCtx : RenderContext :=
  { definitions := [], footnoteDefinitions := []
    t2t := fun s => Except.ok s, hasOnError := true }

/-- A render context whose external math converter always fails. -/
def failCtx : RenderContext :=
  { definitions := [], footnoteDefinitions := []
    t2t := fun _ => Except.error "bad", hasOnError := true }

/-- A dispatch body that throws exactly on math nodes and otherwise renders
a node as its kind name. -/
def throwingBody : Block → Nat → JSOutcome :=
  fun n _ =>
    match n with
    | .math _ => .thrown "boom" [] false
    | n => .ok { out := some n.typeName }

/-- The merged metadata of a document with no metadata at all. -/
def emptyMeta : DocumentMetadata :=
  { title := "", authors := [], description := none, keywords := none
    date := none, abstract := none, lang := none, region := none }

/-- A document whose single paragraph holds two remote images. -/
def twoRemoteImagesDoc : List Block :=
  [.paragraph [.image "http://e.com/a.png", .image "https://f.org/b.png"]]

/-- A document whose only remote image sits inside a footnote definition
that is never referenced, so it is never rendered. -/
def hiddenRemoteImageDoc : List Block :=
  [.footnoteDefinition "a" [.paragraph [.image "http://e.com/i.png"]]]

/-! ## Claim theorems -/

/-- C10: `parseDate` is total — a Lean function by construction, mirroring
the source whose body consists only of total string/regex/`parseInt`
operations on its string argument — and its result is always exactly one of
`auto`, `none`, or a `datetime(day: d, month: m, year: y)` constructor whose
components are the integers parsed from the `YYYY-M-D` match.  Consequently
the catch branch of the date handling in `buildOutput` (which would report a
date-parsing warning and fall back to `auto`) can never run, and indeed
`buildOutputParts` invokes `parseDate` only on its success path. -/
theorem C10_parseDate_total_shape (s : String) :
    parseDate s = "auto" ∨ parseDate s = "none" ∨
      ∃ y m d : Nat, isoDateMatch (jsTrim s) = some (y, m, d) ∧
        parseDate s = "datetime(day: " ++ toString d ++ ", month: " ++
          toString m ++ ", year: " ++ toString y ++ ")" := by
  unfold parseDate
  by_cases h1 : jsToLower (jsTrim s) = "auto"
  · simp [h1]
  · by_cases h2 : jsToLower (jsTrim s) = "none"
    · simp [h1, h2]
    · cases h3 : isoDateMatch (jsTrim s) with
      | none => simp [h1, h2, h3]
      | some t =>
        obtain ⟨y, m, d⟩ := t
        right; right
        refine ⟨y, m, d, rfl, ?_⟩
        simp [h1, h2]

/-- C4: evaluation of the date handling at the spec's inputs.  An ISO date
renders as the structured constructor and `auto`/`none` pass through, as the
claim states; but on the unparseable input `not-a-date` the pipeline renders
`date: auto` while reporting no warning at all (the error list of the whole
conversion is empty even with a callback supplied), contradicting the
claim's — and the repository documentation's — promised warning. -/
theorem C4_date_directive_eval :
    parseDate "2024-01-15" = "datetime(day: 15, month: 1, year: 2024)" ∧
    parseDate "auto" = "auto" ∧
    parseDate "none" = "none" ∧
    parseDate "not-a-date" = "auto" ∧
    (markdown2typst 10 (fun s => Except.ok s) (fun _ => none) (fun _ => none)
      (fun _ => Except.ok none) []
      { date := some "not-a-date", hasOnError := true }).errs = [] ∧
    (markdown2typst 10 (fun s => Except.ok s) (fun _ => none) (fun _ => none)
      (fun _ => Except.ok none) []
      { date := some "not-a-date", hasOnError := true }).output =
      "// " ++ eqRuler 15 ++ "  FRONTMATTER  " ++ eqRuler 15 ++
      "\n\n#set document(\n  date: auto\n)\n\n#align(center)[\n  #context document.date.display() \\ \\ \n]\n\n//  " ++ eqRuler 44 := by
  refine ⟨by decide, by decide, by decide, by decide, by decide, by decide⟩

/-- C2: merged metadata obeys the fixed precedence.  For the title, an
explicit option beats the frontmatter title, which beats the extracted
leading heading text, which beats absence (empty string); for the other
scalar fields the option value beats the frontmatter value; and concretely,
frontmatter title `A` combined with option title `B` merges to `B`. -/
theorem C2_metadata_precedence (cl cr : String → Option String)
    (options : Markdown2TypstOptions) (frontmatter : Frontmatter)
    (leadingTitle : Option String) :
    (∀ t, options.title = some t →
      (mergeMetadata cl cr options frontmatter leadingTitle).title = t) ∧
    (∀ t, options.title = none → frontmatter.title = some t →
      (mergeMetadata cl cr options frontmatter leadingTitle).title = t) ∧
    (∀ t, options.title = none → frontmatter.title = none →
      leadingTitle = some t →
      (mergeMetadata cl cr options frontmatter leadingTitle).title = t) ∧
    (options.title = none → frontmatter.title = none → leadingTitle = none →
      (mergeMetadata cl cr options frontmatter leadingTitle).title = "") ∧
    (mergeMetadata cl cr options frontmatter leadingTitle).description
      = options.description.or frontmatter.description ∧
    (mergeMetadata cl cr options frontmatter leadingTitle).date
      = options.date.or frontmatter.date ∧
    (mergeMetadata cl cr options frontmatter leadingTitle).keywords
      = options.keywords.or frontmatter.keywords ∧
    (mergeMetadata cl cr options frontmatter leadingTitle).abstract
      = options.abstract.or frontmatter.abstract ∧
    (mergeMetadata cl cr { title := some "B" } { title := some "A" }
      none).title = "B" := by
  refine ⟨?_, ?_, ?_, ?_, rfl, rfl, rfl, rfl, rfl⟩
  · intro t h; simp [mergeMetadata, h]
  · intro t h1 h2; simp [mergeMetadata, h1, h2]
  · intro t h1 h2 h3; simp [mergeMetadata, h1, h2, h3]
  · intro h1 h2 h3; simp [mergeMetadata, h1, h2, h3]

/-- Witness for C2 at a concrete input: frontmatter title `A`, option title
`B`, merged title `B`. -/
theorem C2_metadata_precedence_witness :
    (mergeMetadata (fun _ => none) (fun _ => none) { title := some "B" }
      { title := some "A" } none).title = "B" :=
  (C2_metadata_precedence (fun _ => none) (fun _ => none)
    { title := some "B" } { title := some "A" } none).1 "B" rfl

/-- C1 (amended): rendering an unresolved reference never throws (the
renderers are total functions of this model, mirroring the guarded source
paths).  An unresolved link reference renders as the (Typst-escaped)
literal fallback `label || identifier` text with exactly one warning; an
unresolved footnote reference renders as the empty string — no fallback
text in the output — also with exactly one warning. -/
theorem C1_unresolved_reference_behaviour (fuel : Nat) (ctx : RenderContext)
    (fid lid : String) (lbl : Option String) :
    (mapGet ctx.footnoteDefinitions (jsToLower fid) = none →
      renderInline (fuel + 1) (.footnoteReference fid) ctx =
        { out := some ""
          errs := emitIf ctx.hasOnError
            { severity := .warning
              message := "Footnote reference [^" ++ fid ++
                "] has no matching definition"
              context := "inline rendering"
              detailIdentifier := some fid } }) ∧
    (mapGet ctx.definitions (jsToLower lid) = none →
      renderInline (fuel + 1) (.linkReference lid lbl []) ctx =
        { out := some (escapeTypstText (labelOrIdentifier lbl lid))
          errs := emitIf ctx.hasOnError
            { severity := .warning
              message := "Link reference [" ++ lid ++
                "] has no matching definition"
              context := "inline rendering"
              detailIdentifier := some lid } }) := by
  constructor
  · intro h
    simp [renderInline, h]
  · intro h
    cases fuel <;> simp [renderInline, renderInlines, h]

/-- Witness for C1 at concrete inputs: a link reference `[LBL][ref]` with no
definition renders as `LBL` plus one warning; a footnote reference `[^fn]`
with no definition renders as the empty string plus one warning. -/
theorem C1_unresolved_reference_witness :
    mapGet emptyCtx.definitions (jsToLower "ref") = none ∧
    renderInline 3 (.linkReference "ref" (some "LBL") []) emptyCtx =
      { out := some "LBL"
        errs := [{ severity := .warning
                   message := "Link reference [ref] has no matching definition"
                   context := "inline rendering"
                   detailIdentifier := some "ref" }] } ∧
    mapGet emptyCtx.footnoteDefinitions (jsToLower "fn") = none ∧
    renderInline 3 (.footnoteReference "fn") emptyCtx =
      { out := some ""
        errs := [{ severity := .warning
                   message := "Footnote reference [^fn] has no matching definition"
                   context := "inline rendering"
                   detailIdentifier := some "fn" }] } := by
  refine ⟨rfl, ?_, rfl, ?_⟩
  · have h := (C1_unresolved_reference_behaviour 2 emptyCtx "fn" "ref"
      (some "LBL")).2 rfl
    rw [h]; decide
  · have h := (C1_unresolved_reference_behaviour 2 emptyCtx "fn" "ref"
      (some "LBL")).1 rfl
    rw [h]; decide

/-- C1 counterexample to the claim as stated: a footnote reference `[^x]`
with no matching definition renders as the empty string, whose text does
not contain the identifier `x` (nor any fallback label); still, exactly one
warning is emitted and nothing is thrown. -/
theorem C1_counterexample :
    (renderInlines 2 [.footnoteReference "x"] emptyCtx).str = "" ∧
    countOccurrences "x".data
      ((renderInlines 2 [.footnoteReference "x"] emptyCtx).str).data = 0 ∧
    (renderInlines 2 [.footnoteReference "x"] emptyCtx).errs.length = 1 := by
  refine ⟨by decide, by decide, by decide⟩

/-- C3 (amended): with two top-level definitions whose identifiers coincide
after lower-casing, the second (most recently seen) definition's URL is the
one stored under the shared key, and exactly one warning is emitted — but
the warning carries the identifier and URL of the second (kept) definition,
not the URL of the discarded first one. -/
theorem C3_duplicate_definition_last_wins (b : Bool) (id1 u1 id2 u2 : String)
    (h : jsToLower id1 = jsToLower id2) :
    mapGet (collectDefinitions b [.definition id1 u1, .definition id2 u2]).1
        (jsToLower id2) = some ⟨id2, u2⟩ ∧
    (collectDefinitions b [.definition id1 u1, .definition id2 u2]).2 =
      emitIf b
        { severity := .warning
          message := "Duplicate link/image definition found: [" ++ id2 ++ "]"
          context := "definition collection"
          detailIdentifier := some id2
          detailUrl := some u2 } := by
  simp only [collectDefinitions, collectDefinitionsAux, h]
  simp [mapGet, mapSet, h]

/-- Witness for C3 at a concrete input: definitions `[X]: u1` and
`[x]: u2` collapse to the key `x` bound to the second URL `u2`. -/
theorem C3_duplicate_definition_witness :
    jsToLower "X" = jsToLower "x" ∧
    mapGet (collectDefinitions true
        [.definition "X" "u1", .definition "x" "u2"]).1 (jsToLower "x") =
      some { identifier := "x", url := "u2" } := by
  refine ⟨by decide, ?_⟩
  exact (C3_duplicate_definition_last_wins true "X" "u1" "x" "u2"
    (by decide)).1

/-- C3 counterexample to the claim as stated: for duplicate definitions
`[x]: u1` then `[x]: u2`, the single emitted warning carries URL `u2` — the
URL of the kept second definition — whereas the claim demands the discarded
URL `u1`. -/
theorem C3_counterexample :
    ((collectDefinitions true
        [.definition "x" "u1", .definition "x" "u2"]).2.map
      (fun e => e.detailUrl)) = [some "u2"] ∧
    (some "u2" : Option String) ≠ some "u1" ∧
    mapGet (collectDefinitions true
        [.definition "x" "u1", .definition "x" "u2"]).1 "x" =
      some { identifier := "x", url := "u2" } := by
  refine ⟨by decide, by decide, by decide⟩

/-- C8: the inline-math renderer infers the display convention from the
span's source length against its trimmed value: a span at least 4
characters longer renders with surrounding spaces, a span exactly 2
characters longer renders without them; and the same distinction governs
both the successful-conversion path and the fallback path (the rendered
payload is the converter's output on success and the trimmed original
LaTeX on failure). -/
theorem C8_inline_math_display_inline (fuel : Nat) (ctx : RenderContext)
    (v : String) (s e : Nat) :
    ((jsTrim v).length + 4 ≤ e - s →
      (renderInline (fuel + 1) (.inlineMath v (some (s, e))) ctx).out =
        some ("$ " ++ (match ctx.t2t (jsTrim v) with
          | .ok m => m
          | .error _ => jsTrim v) ++ " $")) ∧
    (e - s = (jsTrim v).length + 2 →
      (renderInline (fuel + 1) (.inlineMath v (some (s, e))) ctx).out =
        some ("$" ++ (match ctx.t2t (jsTrim v) with
          | .ok m => m
          | .error _ => jsTrim v) ++ "$")) := by
  constructor
  · intro h
    cases ht : ctx.t2t (jsTrim v) <;> simp [renderInline, ht, h]
  · intro h
    have h4 : ¬ ((jsTrim v).length + 4 ≤ e - s) := by omega
    cases ht : ctx.t2t (jsTrim v) <;> simp [renderInline, ht, h4]

/-- Witness for C8 at concrete inputs: the span `$$x$$` (source length 7
against trimmed value `x`) renders spaced, the span `$x$` (source length 3)
renders unspaced, and the spacing distinction also holds when the converter
fails. -/
theorem C8_inline_math_witness :
    ((jsTrim "x").length + 4 ≤ 7 - 0) ∧
    (renderInline 1 (.inlineMath "x" (some (0, 7))) emptyCtx).out =
      some "$ x $" ∧
    (3 - 0 = (jsTrim "x").length + 2) ∧
    (renderInline 1 (.inlineMath "x" (some (0, 3))) emptyCtx).out =
      some "$x$" ∧
    (renderInline 1 (.inlineMath "x" (some (0, 7))) failCtx).out =
      some "$ x $" ∧
    (renderInline 1 (.inlineMath "x" (some (0, 3))) failCtx).out =
      some "$x$" := by
  refine ⟨by decide, ?_, by decide, ?_, ?_, ?_⟩
  · have h := (C8_inline_math_display_inline 0 emptyCtx "x" 0 7).1 (by decide)
    rw [h]; decide
  · have h := (C8_inline_math_display_inline 0 emptyCtx "x" 0 3).2 (by decide)
    rw [h]; decide
  · have h := (C8_inline_math_display_inline 0 failCtx "x" 0 7).1 (by decide)
    rw [h]; decide
  · have h := (C8_inline_math_display_inline 0 failCtx "x" 0 3).2 (by decide)
    rw [h]; decide

/-- Appending a final newline never changes the backtick-run accumulator:
the newline terminates any run without contributing to it. -/
theorem maxBacktickRunAux_append_newline (l : List Char) (r m : Nat) :
    maxBacktickRunAux (l ++ ['\n']) r m = maxBacktickRunAux l r m := by
  induction l generalizing r m with
  | nil =>
    have hne : ('\n' : Char) ≠ backtickChar := by decide
    simp [maxBacktickRunAux, hne]
  | cons c rest ih =>
    by_cases hc : c = backtickChar <;> simp [maxBacktickRunAux, hc, ih]

/-- Dropping the single trailing newline (as `renderCodeBlock` does before
measuring the fence) does not change the longest backtick run. -/
theorem maxBacktickRun_stripTrailingNewline (s : String) :
    maxBacktickRun (stripTrailingNewline s) = maxBacktickRun s := by
  unfold stripTrailingNewline maxBacktickRun
  cases hl : s.data.getLast? with
  | none => rfl
  | some c =>
    by_cases hc : c = '\n'
    · subst hc
      have hne : s.data ≠ [] := by
        intro h0
        rw [h0] at hl
        exact Option.noConfusion hl
      have hdecomp : s.data.dropLast ++ ['\n'] = s.data := by
        have hlast : s.data.getLast hne = '\n' :=
          (List.getLast?_eq_getLast s.data hne) ▸ hl |> Option.some.inj
        rw [← hlast]
        exact List.dropLast_append_getLast hne
      simp only [if_pos rfl]
      conv_rhs => rw [← hdecomp]
      exact (maxBacktickRunAux_append_newline s.data.dropLast 0 0).symm
    · simp [hc]

/-- C7: for every code block, the emitted backtick fence is strictly longer
than the longest run of backticks in the code value and at least 3 long;
the trimmed language tag, when present, immediately follows the opening
fence on the first emitted line. -/
theorem C7_code_fence (lang value : String) :
    maxBacktickRun value < (codeFence (stripTrailingNewline value)).length ∧
    3 ≤ (codeFence (stripTrailingNewline value)).length ∧
    (jsTrim lang ≠ "" →
      renderCodeBlock (some lang) value 0 =
        String.intercalate "\n"
          [codeFence (stripTrailingNewline value) ++ jsTrim lang,
            stripTrailingNewline value,
            codeFence (stripTrailingNewline value)]) ∧
    renderCodeBlock none value 0 =
      String.intercalate "\n"
        [codeFence (stripTrailingNewline value),
          stripTrailingNewline value,
          codeFence (stripTrailingNewline value)] := by
  have hlen : (codeFence (stripTrailingNewline value)).length =
      max 3 (maxBacktickRun (stripTrailingNewline value) + 1) := by
    simp [codeFence, String.length]
  refine ⟨?_, ?_, ?_, ?_⟩
  · rw [hlen, ← maxBacktickRun_stripTrailingNewline value]
    exact Nat.lt_of_lt_of_le (Nat.lt_succ_self _) (Nat.le_max_right _ _)
  · rw [hlen]
    exact Nat.le_max_left _ _
  · intro h
    simp [renderCodeBlock, indentLines, h]
  · simp [renderCodeBlock, indentLines]

/-- Witness for C7 at a concrete input: a `ts` code block containing a run
of two backticks is fenced with three backticks, the language tag glued to
the opening fence. -/
theorem C7_code_fence_witness :
    jsTrim "ts" ≠ "" ∧
    renderCodeBlock (some "ts") "a``b" 0 = "```ts\na``b\n```" ∧
    maxBacktickRun "a``b" < (codeFence (stripTrailingNewline "a``b")).length := by
  refine ⟨by decide, ?_, (C7_code_fence "ts" "a``b").1⟩
  have h := (C7_code_fence "ts" "a``b").2.2.1 (by decide)
  rw [h]; decide

/-- C6: the dispatch boundary of `renderBlock` isolates faults per node.
For any behaviour of the dispatch body, if the body throws on a node then
the boundary yields `null` for that node (so it contributes nothing to the
joined sibling output), reports exactly one `error` carrying the node's
kind (after the side effects already performed), and every sibling's
render is exactly what it would be with the throwing node absent. -/
theorem C6_fault_isolation (body : Block → Nat → JSOutcome) (b : Bool)
    (pre post : List Block) (node : Block) (msg : String)
    (errs : List ConversionError) (ext : Bool)
    (h : body node 0 = .thrown msg errs ext) :
    (renderBlockCaught body b node 0).out = none ∧
    (renderBlockCaught body b node 0).errs = errs ++ emitIf b
      { severity := .error
        message := "Error rendering block node: " ++ msg
        context := "block rendering"
        detailNodeType := some node.typeName } ∧
    filterNonEmpty ((pre ++ node :: post).map
        (fun n => (renderBlockCaught body b n 0).out)) =
      filterNonEmpty ((pre ++ post).map
        (fun n => (renderBlockCaught body b n 0).out)) := by
  refine ⟨?_, ?_, ?_⟩
  · simp [renderBlockCaught, h]
  · simp [renderBlockCaught, h]
  · simp [filterNonEmpty, renderBlockCaught, h]

/-- Witness for C6 at a concrete input: with a body throwing on the middle
math node, the sibling list renders exactly as without it, and the caught
error carries severity `error` and the node kind `math`. -/
theorem C6_fault_isolation_witness :
    throwingBody (.math "x") 0 = .thrown "boom" [] false ∧
    filterNonEmpty (([Block.paragraph []] ++ Block.math "x" ::
        [Block.thematicBreak]).map
      (fun n => (renderBlockCaught throwingBody true n 0).out)) =
      ["paragraph", "thematicBreak"] ∧
    (renderBlockCaught throwingBody true (.math "x") 0).errs =
      [{ severity := .error
         message := "Error rendering block node: boom"
         context := "block rendering"
         detailNodeType := some "math" }] := by
  refine ⟨rfl, ?_, ?_⟩
  · have h := (C6_fault_isolation throwingBody true [Block.paragraph []]
      [Block.thematicBreak] (.math "x") "boom" [] false rfl).2.2
    rw [h]; decide
  · have h := (C6_fault_isolation throwingBody true [Block.paragraph []]
      [Block.thematicBreak] (.math "x") "boom" [] false rfl).2.1
    rw [h]; decide

/-- The first character of an appended string is the first character of the
left part, when the left part is non-empty. -/
theorem head?_append_left (p x : String) (c : Char)
    (h : p.data.head? = some c) : (p ++ x).data.head? = some c := by
  rw [String.data_append]
  cases hd : p.data with
  | nil => rw [hd] at h; exact Option.noConfusion h
  | cons a l => rw [hd] at h; simpa using h

/-- A string whose first character is not `/` differs from the warnings
section (which starts with a comment line). -/
theorem ne_warnSection_of_head (s : String)
    (h : s.data.head? ≠ some '/') : s ≠ warningsSectionText := by
  intro he
  apply h
  rw [he]
  decide

/-- The warnings section never occurs among the `#set document(...)`
argument lines: each of those starts with two spaces of indentation. -/
theorem warnSection_not_mem_docArgLines (args : List String) :
    warningsSectionText ∉ docArgLines args := by
  induction args with
  | nil => simp [docArgLines]
  | cons a rest ih =>
    cases rest with
    | nil =>
      simp only [docArgLines, List.mem_singleton]
      intro he
      exact ne_warnSection_of_head ("  " ++ a)
        (by rw [head?_append_left "  " a ' ' (by decide)]; decide) he.symm
    | cons b rest2 =>
      simp only [docArgLines, List.mem_cons]
      rintro (he | hm)
      · exact ne_warnSection_of_head (("  " ++ a) ++ ",")
          (by rw [head?_append_left _ "," ' '
            (head?_append_left "  " a ' ' (by decide))]; decide) he.symm
      · exact ih hm

/-- The warnings section never occurs among the metadata-only parts of the
assembled output: every one of those parts is either a fixed string
distinct from it, or starts with indentation or a `#` call. -/
theorem warnSection_not_mem_metadataParts (md : DocumentMetadata) :
    warningsSectionText ∉ metadataParts md := by
  obtain ⟨title, authors, mdesc, mkw, mdate, mabs, mlang, mreg⟩ := md
  have hsp : ∀ x : String, warningsSectionText ≠ "  " ++ x := by
    intro x he
    exact ne_warnSection_of_head ("  " ++ x)
      (by rw [head?_append_left "  " x ' ' (by decide)]; decide) he.symm
  have habs : ∀ x : String,
      warningsSectionText ≠ ("#let abstract = [" ++ x) ++ "]" := by
    intro x he
    exact ne_warnSection_of_head (("#let abstract = [" ++ x) ++ "]")
      (by rw [head?_append_left _ "]" '#'
        (head?_append_left "#let abstract = [" x '#' (by decide))]; decide)
      he.symm
  have htext : ∀ x : String,
      warningsSectionText ≠ ("#set text(" ++ x) ++ ")" := by
    intro x he
    exact ne_warnSection_of_head (("#set text(" ++ x) ++ ")")
      (by rw [head?_append_left _ ")" '#'
        (head?_append_left "#set text(" x '#' (by decide))]; decide)
      he.symm
  intro hmem
  simp only [metadataParts, List.mem_append] at hmem
  have hite : ∀ {xs : List String} {c : Prop} [Decidable c],
      warningsSectionText ∈ (if c then xs else []) →
        warningsSectionText ∈ xs := by
    intro xs c inst h
    by_cases hc : c
    · simpa [hc] using h
    · simp [hc] at h
  rcases hmem with (((m1 | m2) | m3) | m4) | m5
  · rcases hite m1 with h
    simp only [List.mem_append, List.mem_cons, List.mem_singleton,
      List.not_mem_nil, or_false] at h
    rcases h with ((h | h) | h) | h
    · exact absurd h (by decide)
    · exact absurd h (by decide)
    · exact warnSection_not_mem_docArgLines _ h
    · exact absurd h (by decide)
  · cases mabs with
    | none => simp at m2
    | some ab =>
      simp only [] at m2
      by_cases hab : ab = ""
      · have hnc : ¬(ab ≠ "") := fun hc => hc hab
        rw [if_neg hnc] at m2
        simp at m2
      · rw [if_pos hab] at m2
        rcases List.mem_append.mp m2 with h | h
        · rcases hite h with h2
          simp only [List.mem_singleton] at h2
          exact absurd h2 (by decide)
        · simp only [List.mem_singleton] at h
          exact habs ab h
  · rcases hite m3 with h
    simp only [List.mem_cons, List.mem_singleton, List.not_mem_nil,
      or_false] at h
    rcases h with h | h | h | h
    · exact absurd h (by decide)
    · exact absurd h (by decide)
    · exact hsp _ h
    · exact absurd h (by decide)
  · rcases hite m4 with h
    rcases List.mem_append.mp h with h2 | h2
    · rcases hite h2 with h3
      simp only [List.mem_singleton] at h3
      exact absurd h3 (by decide)
    · simp only [List.mem_singleton] at h2
      exact htext _ h2
  · rcases hite m5 with h
    simp only [List.mem_cons, List.mem_singleton, List.not_mem_nil,
      or_false] at h
    rcases h with h | h
    · exact absurd h (by decide)
    · exact absurd h (by decide)

/-- C5 (amended): when body rendering sets the remote-image flag (which any
rendered remote image does, however many there are), the assembled output
parts contain the external-image helper preamble exactly once; when the
flag is not set, the preamble is absent; a non-remote image is emitted as a
direct escaped embed and a remote image as the external-image construct
that sets the flag.  (A remote image that is never rendered — e.g. one
inside an unreferenced footnote definition — does not set the flag; see the
counterexample.) -/
theorem C5_external_image_preamble (fuel : Nat) (tree : List Block)
    (md : DocumentMetadata) (lti : Option Nat) (ctx : RenderContext)
    (hbody : String.intercalate "\n\n" (filterNonEmpty
      (renderBlocks fuel (nodesForBody tree md.title lti) 0 ctx).outs) ≠
      warningsSectionText) :
    ((renderBlocks fuel (nodesForBody tree md.title lti) 0 ctx).ext = true →
      (buildOutputParts fuel tree md lti ctx).count warningsSectionText = 1) ∧
    ((renderBlocks fuel (nodesForBody tree md.title lti) 0 ctx).ext = false →
      (buildOutputParts fuel tree md lti ctx).count warningsSectionText = 0) ∧
    (∀ url, isExternalUrl url = false →
      renderImage url =
        { out := some ("#image(\"" ++ escapeTypstString url ++ "\")") }) ∧
    (∀ url, isExternalUrl url = true →
      renderImage url =
        { out := some ("#external-image(\n  \"" ++ escapeTypstString url ++
            "\"\n)")
          ext := true }) := by
  have hmeta : (metadataParts md).count warningsSectionText = 0 :=
    List.count_eq_zero.mpr (warnSection_not_mem_metadataParts md)
  have hgap : ∀ (c : Prop) [Decidable c],
      (if c then [""] else []).count warningsSectionText = 0 := by
    intro c inst
    by_cases hc : c <;> simp [hc, List.count_cons]
    decide
  have hbodyseg : ∀ (b : String), b ≠ warningsSectionText →
      (if b ≠ "" then [b] else []).count warningsSectionText = 0 := by
    intro b hb
    by_cases hbe : b ≠ "" <;> simp [hbe, List.count_cons, hb]
  refine ⟨?_, ?_, ?_, ?_⟩
  · intro hext
    simp only [buildOutputParts, buildWarningsSection, hext, if_true]
    simp only [List.count_append, hmeta, hgap, hbodyseg _ hbody]
    have : (["", warningsSectionText]).count warningsSectionText = 1 := by
      simp [List.count_cons]
      decide
    omega
  · intro hext
    simp only [buildOutputParts, buildWarningsSection, hext]
    simp only [Bool.false_eq_true, if_false, List.append_nil,
      List.count_append, hmeta, hgap, hbodyseg _ hbody]
  · intro url h
    simp [renderImage, h]
  · intro url h
    simp [renderImage, h]

/-- Witness for C5 at a concrete input: a document with two remote images
sets the flag, and the assembled parts contain the helper preamble exactly
once. -/
theorem C5_external_image_preamble_witness :
    (renderBlocks 5 (nodesForBody twoRemoteImagesDoc "" none) 0
      emptyCtx).ext = true ∧
    (buildOutputParts 5 twoRemoteImagesDoc emptyMeta none emptyCtx).count
      warningsSectionText = 1 ∧
    isExternalUrl "images/cat.jpg" = false := by
  refine ⟨by decide, ?_, by decide⟩
  exact (C5_external_image_preamble 5 twoRemoteImagesDoc emptyMeta none
    emptyCtx (by decide)).1 (by decide)

/-- C5 counterexample to the claim as stated: this document contains an
image with scheme `http`, yet the conversion output is empty and contains
the helper preamble zero times — the image sits inside an unreferenced
footnote definition, which renders as nothing, so the flag is never set. -/
theorem C5_counterexample :
    isExternalUrl "http://e.com/i.png" = true ∧
    (markdown2typst 10 (fun s => Except.ok s) (fun _ => none) (fun _ => none)
      (fun _ => Except.ok none) hiddenRemoteImageDoc {}).output = "" ∧
    countOccurrences "#let external-image".data
      ((markdown2typst 10 (fun s => Except.ok s) (fun _ => none)
        (fun _ => none) (fun _ => Except.ok none) hiddenRemoteImageDoc
        {}).output).data = 0 := by
  refine ⟨by decide, by decide, by decide⟩

/-- Simultaneous fuel induction: every renderer's output component and
remote-image flag are unchanged when only the `hasOnError` flag of the
context differs — the flag gates error emission and nothing else. -/
theorem render_output_indep (fuel : Nat) :
    (∀ node ctx b,
      (renderInline fuel node { ctx with hasOnError := b } : ROut).out
          = (renderInline fuel node ctx).out ∧
      (renderInline fuel node { ctx with hasOnError := b }).ext
          = (renderInline fuel node ctx).ext) ∧
    (∀ nodes ctx b,
      (renderInlines fuel nodes { ctx with hasOnError := b }).str
          = (renderInlines fuel nodes ctx).str ∧
      (renderInlines fuel nodes { ctx with hasOnError := b }).ext
          = (renderInlines fuel nodes ctx).ext) ∧
    (∀ ch ctx b,
      (renderParagraph fuel ch { ctx with hasOnError := b }).str
          = (renderParagraph fuel ch ctx).str ∧
      (renderParagraph fuel ch { ctx with hasOnError := b }).ext
          = (renderParagraph fuel ch ctx).ext) ∧
    (∀ node ind ctx b,
      (renderBlock fuel node ind { ctx with hasOnError := b }).out
          = (renderBlock fuel node ind ctx).out ∧
      (renderBlock fuel node ind { ctx with hasOnError := b }).ext
          = (renderBlock fuel node ind ctx).ext) ∧
    (∀ ordered items ind ctx b,
      (renderList fuel ordered items ind { ctx with hasOnError := b }).str
          = (renderList fuel ordered items ind ctx).str ∧
      (renderList fuel ordered items ind { ctx with hasOnError := b }).ext
          = (renderList fuel ordered items ind ctx).ext) ∧
    (∀ items marker ind ctx b,
      (renderListItems fuel items marker ind
        { ctx with hasOnError := b }).lines
          = (renderListItems fuel items marker ind ctx).lines ∧
      (renderListItems fuel items marker ind { ctx with hasOnError := b }).ext
          = (renderListItems fuel items marker ind ctx).ext) ∧
    (∀ item marker ind ctx b,
      (renderListItem fuel item marker ind { ctx with hasOnError := b }).str
          = (renderListItem fuel item marker ind ctx).str ∧
      (renderListItem fuel item marker ind { ctx with hasOnError := b }).ext
          = (renderListItem fuel item marker ind ctx).ext) ∧
    (∀ ch ind ctx b,
      (renderItemChildren fuel ch ind { ctx with hasOnError := b }).lines
          = (renderItemChildren fuel ch ind ctx).lines ∧
      (renderItemChildren fuel ch ind { ctx with hasOnError := b }).ext
          = (renderItemChildren fuel ch ind ctx).ext) ∧
    (∀ nodes ind ctx b,
      (renderBlocks fuel nodes ind { ctx with hasOnError := b }).outs
          = (renderBlocks fuel nodes ind ctx).outs ∧
      (renderBlocks fuel nodes ind { ctx with hasOnError := b }).ext
          = (renderBlocks fuel nodes ind ctx).ext) := by
  induction fuel with
  | zero =>
    refine ⟨?_, ?_, ?_, ?_, ?_, ?_, ?_, ?_, ?_⟩ <;> intros <;> exact ⟨rfl, rfl⟩
  | succ n ih =>
    obtain ⟨ihInl, ihInls, ihPar, ihBlk, ihList, ihItems, ihItem, ihChld,
      ihBlks⟩ := ih
    have ihInlO : ∀ node ctx b,
        (renderInline n node { ctx with hasOnError := b } : ROut).out
          = (renderInline n node ctx).out := fun x c bb => (ihInl x c bb).1
    have ihInlE : ∀ node ctx b,
        (renderInline n node { ctx with hasOnError := b } : ROut).ext
          = (renderInline n node ctx).ext := fun x c bb => (ihInl x c bb).2
    have ihInlsS : ∀ nodes ctx b,
        (renderInlines n nodes { ctx with hasOnError := b }).str
          = (renderInlines n nodes ctx).str := fun x c bb => (ihInls x c bb).1
    have ihInlsE : ∀ nodes ctx b,
        (renderInlines n nodes { ctx with hasOnError := b }).ext
          = (renderInlines n nodes ctx).ext := fun x c bb => (ihInls x c bb).2
    have ihParS : ∀ ch ctx b,
        (renderParagraph n ch { ctx with hasOnError := b }).str
          = (renderParagraph n ch ctx).str := fun x c bb => (ihPar x c bb).1
    have ihParE : ∀ ch ctx b,
        (renderParagraph n ch { ctx with hasOnError := b }).ext
          = (renderParagraph n ch ctx).ext := fun x c bb => (ihPar x c bb).2
    have ihBlkO : ∀ node ind ctx b,
        (renderBlock n node ind { ctx with hasOnError := b }).out
          = (renderBlock n node ind ctx).out :=
      fun x i c bb => (ihBlk x i c bb).1
    have ihBlkE : ∀ node ind ctx b,
        (renderBlock n node ind { ctx with hasOnError := b }).ext
          = (renderBlock n node ind ctx).ext :=
      fun x i c bb => (ihBlk x i c bb).2
    have ihListS : ∀ ordered items ind ctx b,
        (renderList n ordered items ind { ctx with hasOnError := b }).str
          = (renderList n ordered items ind ctx).str :=
      fun o x i c bb => (ihList o x i c bb).1
    have ihListE : ∀ ordered items ind ctx b,
        (renderList n ordered items ind { ctx with hasOnError := b }).ext
          = (renderList n ordered items ind ctx).ext :=
      fun o x i c bb => (ihList o x i c bb).2
    have ihItemsL : ∀ items marker ind ctx b,
        (renderListItems n items marker ind
          { ctx with hasOnError := b }).lines
          = (renderListItems n items marker ind ctx).lines :=
      fun x mk i c bb => (ihItems x mk i c bb).1
    have ihItemsE : ∀ items marker ind ctx b,
        (renderListItems n items marker ind { ctx with hasOnError := b }).ext
          = (renderListItems n items marker ind ctx).ext :=
      fun x mk i c bb => (ihItems x mk i c bb).2
    have ihItemS : ∀ item marker ind ctx b,
        (renderListItem n item marker ind { ctx with hasOnError := b }).str
          = (renderListItem n item marker ind ctx).str :=
      fun x mk i c bb => (ihItem x mk i c bb).1
    have ihItemE : ∀ item marker ind ctx b,
        (renderListItem n item marker ind { ctx with hasOnError := b }).ext
          = (renderListItem n item marker ind ctx).ext :=
      fun x mk i c bb => (ihItem x mk i c bb).2
    have ihChldL : ∀ ch ind ctx b,
        (renderItemChildren n ch ind { ctx with hasOnError := b }).lines
          = (renderItemChildren n ch ind ctx).lines :=
      fun x i c bb => (ihChld x i c bb).1
    have ihChldE : ∀ ch ind ctx b,
        (renderItemChildren n ch ind { ctx with hasOnError := b }).ext
          = (renderItemChildren n ch ind ctx).ext :=
      fun x i c bb => (ihChld x i c bb).2
    have ihBlksO : ∀ nodes ind ctx b,
        (renderBlocks n nodes ind { ctx with hasOnError := b }).outs
          = (renderBlocks n nodes ind ctx).outs :=
      fun x i c bb => (ihBlks x i c bb).1
    have ihBlksE : ∀ nodes ind ctx b,
        (renderBlocks n nodes ind { ctx with hasOnError := b }).ext
          = (renderBlocks n nodes ind ctx).ext :=
      fun x i c bb => (ihBlks x i c bb).2
    refine ⟨?_, ?_, ?_, ?_, ?_, ?_, ?_, ?_, ?_⟩
    · intro node ctx bb
      cases node with
      | text v => exact ⟨rfl, rfl⟩
      | strong ch => simp [renderInline, ihInlsS, ihInlsE]
      | emphasis ch => simp [renderInline, ihInlsS, ihInlsE]
      | delete ch => simp [renderInline, ihInlsS, ihInlsE]
      | mark ch => simp [renderInline, ihInlsS, ihInlsE]
      | subscript ch => simp [renderInline, ihInlsS, ihInlsE]
      | superscript ch => simp [renderInline, ihInlsS, ihInlsE]
      | inlineCode v => exact ⟨rfl, rfl⟩
      | inlineMath v pos =>
        simp only [renderInline]
        cases ht : ctx.t2t (jsTrim v) <;> simp [ht]
      | image url => exact ⟨rfl, rfl⟩
      | link url ch => simp [renderInline, ihInlsS, ihInlsE]
      | linkReference ident lbl ch =>
        simp only [renderInline]
        cases hm : mapGet ctx.definitions (jsToLower ident) <;>
          simp [hm, ihInlsS, ihInlsE]
      | footnoteReference ident =>
        simp only [renderInline]
        cases hm : mapGet ctx.footnoteDefinitions (jsToLower ident) <;>
          simp [hm, ihBlksO, ihBlksE]
      | hardBreak => exact ⟨rfl, rfl⟩
      | html v => exact ⟨rfl, rfl⟩
      | unknownInline => exact ⟨rfl, rfl⟩
    · intro nodes ctx bb
      cases nodes with
      | nil => exact ⟨rfl, rfl⟩
      | cons x rest => simp [renderInlines, ihInlO, ihInlE, ihInlsS, ihInlsE]
    · intro ch ctx bb
      simp only [renderParagraph]
      by_cases ht : jsToLower (jsTrim
          (plainTextFromPhrasing (n + 1) ch ctx.definitions)) = "[toc]" <;>
        simp [ht, ihInlsS, ihInlsE]
    · intro node ind ctx bb
      cases node with
      | yaml v => exact ⟨rfl, rfl⟩
      | definition i u => exact ⟨rfl, rfl⟩
      | footnoteDefinition i ch => exact ⟨rfl, rfl⟩
      | heading depth ch => simp [renderBlock, ihInlsS, ihInlsE]
      | paragraph ch => simp [renderBlock, ihParS, ihParE]
      | list ordered items => simp [renderBlock, ihListS, ihListE]
      | code lang v => exact ⟨rfl, rfl⟩
      | blockquote ch => simp [renderBlock, ihBlksO, ihBlksE]
      | thematicBreak => exact ⟨rfl, rfl⟩
      | math v =>
        simp only [renderBlock]
        cases ht : ctx.t2t (jsTrim v) <;> simp [renderMathBlock, ht]
      | unknown t => simp [renderBlock]
    · intro ordered items ind ctx bb
      simp [renderList, ihItemsL, ihItemsE]
    · intro items marker ind ctx bb
      cases items with
      | nil => exact ⟨rfl, rfl⟩
      | cons x rest =>
        simp [renderListItems, ihItemS, ihItemE, ihItemsL, ihItemsE]
    · intro item marker ind ctx bb
      obtain ⟨children⟩ := item
      cases children with
      | nil => simp [renderListItem, ListItem.children, ihChldL, ihChldE]
      | cons c rest =>
        cases c <;>
          simp [renderListItem, ListItem.children, ihChldL, ihChldE,
            ihParS, ihParE]
    · intro ch ind ctx bb
      cases ch with
      | nil => exact ⟨rfl, rfl⟩
      | cons c rest =>
        cases c <;>
          simp [renderItemChildren, ihChldL, ihChldE, ihListS, ihListE,
            ihBlkO, ihBlkE]
    · intro nodes ind ctx bb
      cases nodes with
      | nil => exact ⟨rfl, rfl⟩
      | cons x rest => simp [renderBlocks, ihBlkO, ihBlkE, ihBlksO, ihBlksE]

/-- The definition map built by the collector does not depend on whether a
callback was supplied (nor on the errors accumulated so far). -/
theorem collectDefinitionsAux_map_indep (l : List Block) :
    ∀ m e1 e2 b1 b2, (collectDefinitionsAux b1 l m e1).1
      = (collectDefinitionsAux b2 l m e2).1 := by
  induction l with
  | nil => intro m e1 e2 b1 b2; rfl
  | cons node rest ih =>
    intro m e1 e2 b1 b2
    cases node <;> (simp only [collectDefinitionsAux]; exact ih _ _ _ _ _)

/-- The footnote map built by the collector does not depend on whether a
callback was supplied. -/
theorem collectFootnotesAux_map_indep (l : List Block) :
    ∀ m e1 e2 b1 b2, (collectFootnotesAux b1 l m e1).1
      = (collectFootnotesAux b2 l m e2).1 := by
  induction l with
  | nil => intro m e1 e2 b1 b2; rfl
  | cons node rest ih =>
    intro m e1 e2 b1 b2
    cases node <;> (simp only [collectFootnotesAux]; exact ih _ _ _ _ _)

/-- The decoded frontmatter does not depend on whether a callback was
supplied (the flag only gates the emission of decode warnings). -/
theorem parseFrontmatter_fst_indep
    (yamlLoad : String → Except String (Option YamlRecord))
    (tree : List Block) (b1 b2 : Bool) :
    (parseFrontmatter yamlLoad b1 tree).1
      = (parseFrontmatter yamlLoad b2 tree).1 := by
  unfold parseFrontmatter
  cases findYamlNode tree with
  | none => rfl
  | some v =>
    by_cases hv : v = ""
    · simp [hv]
    · simp only [hv, if_neg hv]
      unfold parseFrontmatterYaml
      cases yamlLoad v with
      | error msg => rfl
      | ok o =>
        cases o with
        | none => rfl
        | some rec =>
          simp only []
          cases yamlGet rec "author" with
          | none => rfl
          | some av => cases av <;> rfl

/-- The assembled output text does not depend on whether a callback was
supplied in the render context. -/
theorem buildOutput_output_indep (fuel : Nat) (tree : List Block)
    (md : DocumentMetadata) (lti : Option Nat) (ctx : RenderContext)
    (b : Bool) :
    (buildOutput fuel tree md lti { ctx with hasOnError := b }).output
      = (buildOutput fuel tree md lti ctx).output := by
  have ho := ((render_output_indep fuel).2.2.2.2.2.2.2.2
    (nodesForBody tree md.title lti) 0 ctx b).1
  have he := ((render_output_indep fuel).2.2.2.2.2.2.2.2
    (nodesForBody tree md.title lti) 0 ctx b).2
  simp only [buildOutput, buildOutputParts, ho, he]

/-- C9: the conversion output is independent of whether an `onError`
callback is supplied.  For every parsed tree, every option set and every
behaviour of the external collaborators, converting with the callback
present and with it absent (all else equal) produces identical output
strings — the callback only observes errors and never influences the
result. -/
theorem C9_output_independent_of_callback (fuel : Nat)
    (t2t : String → Except String String)
    (cl cr : String → Option String)
    (yamlLoad : String → Except String (Option YamlRecord))
    (tree : List Block) (opts : Markdown2TypstOptions) :
    (markdown2typst fuel t2t cl cr yamlLoad tree
      { opts with hasOnError := true }).output
      = (markdown2typst fuel t2t cl cr yamlLoad tree
        { opts with hasOnError := false }).output := by
  have hdefs : (collectDefinitions true tree).1
      = (collectDefinitions false tree).1 :=
    collectDefinitionsAux_map_indep tree [] [] [] true false
  have hfn : (collectFootnotes true tree).1
      = (collectFootnotes false tree).1 :=
    collectFootnotesAux_map_indep tree [] [] [] true false
  have hfm : (parseFrontmatter yamlLoad true tree).1
      = (parseFrontmatter yamlLoad false tree).1 :=
    parseFrontmatter_fst_indep yamlLoad tree true false
  have hmergeT : ∀ fm lt, mergeMetadata cl cr { opts with hasOnError := true }
      fm lt = mergeMetadata cl cr opts fm lt := fun _ _ => rfl
  have hmergeF : ∀ fm lt, mergeMetadata cl cr
      { opts with hasOnError := false } fm lt = mergeMetadata cl cr opts fm lt :=
    fun _ _ => rfl
  simp only [markdown2typst, hdefs, hfn, hfm, hmergeT, hmergeF]
  exact buildOutput_output_indep fuel tree _ _
    { definitions := (collectDefinitions false tree).1
      footnoteDefinitions := (collectFootnotes false tree).1
      t2t := t2t, hasOnError := false } true

end M2T
